import Mathlib

/-!
Shallow embedding of the tcia-cohort-builder repository (two Python files:
`tcia-cohort-builder.py`, the Streamlit dashboard, and
`pathology-downloader.py`, the PyQt download utility), together with proofs
settling the frozen claims about its specification.

Conventions of the embedding:
* pandas DataFrames become Lean structures holding a list of column names and
  a list of rows; a row is an association list from column name to cell value.
* A missing value (pandas `NaN` / `pd.NA`) is `Option.none`.
* Python floats are modelled as exact rationals (`ℚ`); the float literal
  `1/365.25` becomes the exact rational `4/1461`, and the pandas
  `Series.round(1)` is modelled as exact half-to-even rounding at one decimal
  digit, which is numpy's rounding mode.
* Python exceptions raised by a function become `Except e` results with a
  structured error type, so that theorems can talk about which error is
  raised and what data it carries.
* Code that performs I/O (the HTTP download, the filesystem writes) is
  modelled by an oracle parameter giving the outcome of each attempted row,
  so the control flow of the loop around the I/O is what is embedded.
-/

/-! ### Python string primitives

The dashboard uses `substring in string` tests, `str.lower` and `str.strip`;
these are embedded over the character list of a `String`. -/

/-- Boolean test that `needle` occurs as a contiguous sublist of `hay`
(the Python `needle in hay` test on strings, over char lists). -/
def isSubListB (needle : List Char) : List Char → Bool
  | [] => needle.isEmpty
  | c :: cs => needle.isPrefixOf (c :: cs) || isSubListB needle cs

/-- Python `needle in hay` substring containment on strings. -/
def substrB (needle hay : String) : Bool :=
  isSubListB needle.data hay.data

/-- Python `str.lower()`. -/
def strLower (s : String) : String :=
  ⟨s.data.map Char.toLower⟩

/-- Whitespace characters removed by Python `str.strip()`. -/
def wsChar (c : Char) : Bool :=
  (c = ' ') || (c = '\t') || (c = '\n') || (c = '\r') || (c = '\x0b') || (c = '\x0c')

/-- Python `str.strip()`: drop leading and trailing whitespace. -/
def strStrip (s : String) : String :=
  ⟨((s.data.dropWhile wsChar).reverse.dropWhile wsChar).reverse⟩

/-! ### Age normalizer (`calculate_age_at_baseline`, tcia-cohort-builder.py 142-177)

A raw clinical cell is either a numeric value, non-numeric text (which
`pd.to_numeric(errors='coerce')` coerces to `NaN`), or already missing. -/

/-- A raw spreadsheet cell of an age column: numeric, non-numeric text
(coerced to missing by `pd.to_numeric(errors='coerce')`), or missing. -/
inductive Cell where
  | num (q : ℚ)
  | text (s : String)
  | na
deriving DecidableEq

/-- `pd.to_numeric(errors='coerce')` on one cell: numeric values survive,
non-numeric text and missing values become missing (never an error). -/
def toNumeric : Cell → Option ℚ
  | .num q => some q
  | .text _ => none
  | .na => none

/-- The `age_uom_factors` dict of the source: unit name to years factor.
`1/365.25` is the exact rational `4/1461`. -/
def age_uom_factors (u : String) : Option ℚ :=
  if u = "Year" then some 1
  else if u = "Month" then some (1 / 12)
  else if u = "Day" then some (4 / 1461)
  else none

/-- The per-row factor lambda of `calculate_age_at_baseline`: the unit string
is lowercased and stripped (`.str.lower().str.strip()`); a missing unit shows
up as the string `"nan"` (Python `str(nan)`); then the first of the substring
tests `'year' in x`, `'month' in x`, `'day' in x` that matches selects the
factor, and everything else defaults to `1.0`. -/
def uomFactor (u : Option String) : ℚ :=
  let s := match u with
    | some v => strStrip (strLower v)
    | none => "nan"
  if substrB "year" s then (age_uom_factors "Year").getD 1
  else if substrB "month" s then (age_uom_factors "Month").getD 1
  else if substrB "day" s then (age_uom_factors "Day").getD 1
  else 1

/-- A row of the clinical spreadsheet as seen by `calculate_age_at_baseline`:
the raw age cells (an association list keyed by column name) and the value of
the `Age UOM` unit column (`none` = missing). -/
structure RawRow where
  cells : List (String × Cell)
  uom : Option String
deriving DecidableEq

/-- A clinical table: its column names and its rows. -/
structure RawTable where
  cols : List String
  rows : List RawRow
deriving DecidableEq

/-- Value of column `c` in row `r`; a column absent from the row reads as
missing. -/
def cellOf (r : RawRow) (c : String) : Cell :=
  (r.cells.lookup c).getD .na

/-- One step of the pandas `min(axis=1, skipna=True)` fold: missing entries
are skipped, present entries are combined with `min`. -/
def minStep (acc : Option ℚ) (x : Option ℚ) : Option ℚ :=
  match acc, x with
  | none, x => x
  | some a, none => some a
  | some a, some b => some (min a b)

/-- pandas `DataFrame.min(axis=1)` over one row of optional values: the
minimum of the present values, or missing if none is present. -/
def minSkipNA (xs : List (Option ℚ)) : Option ℚ :=
  xs.foldl minStep none

/-- Round-half-to-even to an integer (numpy's rounding mode). -/
def roundHalfEvenZ (q : ℚ) : ℤ :=
  let f : ℤ := ⌊q⌋
  let frac := q - f
  if frac < 1 / 2 then f
  else if 1 / 2 < frac then f + 1
  else if f % 2 = 0 then f else f + 1

/-- numpy / pandas `round(1)`: round-half-to-even at one decimal digit. -/
def rnd1 (q : ℚ) : ℚ :=
  (roundHalfEvenZ (10 * q) : ℚ) / 10

/-- The default `age_columns` argument of `calculate_age_at_baseline`. -/
def default_age_columns : List String :=
  ["Age at Diagnosis", "Age at Surgery", "Age at Enrollment"]

/-- `calculate_age_at_baseline` (tcia-cohort-builder.py 149-177), modelled as
producing the derived `Age at Baseline` column, one optional value per row:
each requested age column that exists in the table is coerced to numeric,
multiplied by the row's unit factor, the row minimum is taken skipping
missing values, and the result is rounded to one decimal place. -/
def calculate_age_at_baseline (t : RawTable) (age_columns : List String) : List (Option ℚ) :=
  let existing := age_columns.filter (fun c => decide (c ∈ t.cols))
  t.rows.map (fun r =>
    (minSkipNA (existing.map
      (fun c => (toNumeric (cellOf r c)).map (fun q => q * uomFactor r.uom)))).map rnd1)

/-! ### Filter engine (`filter_dataframe`, tcia-cohort-builder.py 213-237)

A row of the loaded clinical table: the categorical (string) cells, keyed by
column name, and the derived `Age at Baseline` value (`none` = missing).  The
categorical cell value is itself an `Option String` so a present column can
hold a missing value. -/

/-- A row of the loaded clinical table for filtering purposes. -/
structure ClinRow where
  cells : List (String × Option String)
  age : Option ℚ
deriving DecidableEq

/-- The pandas `df[column].isin(values)` test on one row: true exactly when
the row has a present value for the column and that value is in the accepted
list (a missing value is never `isin` a list of strings). -/
def cellPass (r : ClinRow) (c : String) (vs : List String) : Bool :=
  match r.cells.lookup c with
  | some (some v) => vs.contains v
  | _ => false

/-- One iteration of the `for column, values in filters.items()` loop:
Python's `if values:` skips an empty accepted list, otherwise the frame is
restricted to rows passing the `isin` test. -/
def catStep (acc : List ClinRow) (cf : String × List String) : List ClinRow :=
  if cf.2.isEmpty then acc else acc.filter (fun r => cellPass r cf.1 cf.2)

/-- The combined categorical predicate: every filter entry is satisfied,
where an empty accepted list imposes no constraint. -/
def rowPassCats (fs : List (String × List String)) (r : ClinRow) : Bool :=
  fs.all (fun cf => cf.2.isEmpty || cellPass r cf.1 cf.2)

/-- The age test used when the selected minimum is exactly `0`: keep rows
whose age is missing or at most the maximum. -/
def agePass0 (mx : ℚ) (r : ClinRow) : Bool :=
  r.age.isNone || (match r.age with
    | some a => decide (a ≤ mx)
    | none => false)

/-- The age test used when the selected minimum is not `0`: keep rows whose
age is present and lies within the inclusive range (a missing age fails both
pandas comparisons). -/
def agePassPos (mn mx : ℚ) (r : ClinRow) : Bool :=
  match r.age with
  | some a => decide (mn ≤ a) && decide (a ≤ mx)
  | none => false

/-- `filter_dataframe` (tcia-cohort-builder.py 213-237): apply the
categorical filters in order, then the age-range filter, which only runs when
a range was provided and the range is not at its default extent (the
`Age at Baseline` column always exists in this model, as the dashboard
derives it before filtering). -/
def filter_dataframe (df : List ClinRow) (filters : List (String × List String))
    (age_range : Option (ℚ × ℚ)) (is_default_age_range : Bool) : List ClinRow :=
  let d := filters.foldl catStep df
  match age_range with
  | none => d
  | some (mn, mx) =>
    if is_default_age_range then d
    else if mn = 0 then d.filter (agePass0 mx)
    else d.filter (agePassPos mn mx)

/-- The full row predicate that `filter_dataframe` amounts to (proved below):
categorical part and age part. -/
def ageGate (age_range : Option (ℚ × ℚ)) (is_default_age_range : Bool) (r : ClinRow) : Bool :=
  match age_range with
  | none => true
  | some (mn, mx) =>
    if is_default_age_range then true
    else if mn = 0 then agePass0 mx r
    else agePassPos mn mx r

/-! ### Pathology manifest generator (`generate_pathology_manifest`,
tcia-cohort-builder.py 239-279)

Tables here hold string-valued cells (`none` = missing). -/

/-- A generic string-celled DataFrame: column names plus rows given as
association lists from column name to optional value. -/
structure Table where
  cols : List String
  rows : List (List (String × Option String))
deriving DecidableEq

/-- Value of column `c` in a string-celled row (missing column or missing
value both read as `none`). -/
def getC (r : List (String × Option String)) (c : String) : Option String :=
  (r.lookup c).getD none

/-- The `required_columns` list of `generate_pathology_manifest`. -/
def required_columns : List String :=
  ["Case ID", "imageId", "slideId", "imageHeight", "imagedWidth",
   "physicalPixelSizeX", "physicalPixelSizeY", "imageUrl", "created", "changed"]

/-- The `ValueError`s raised by `generate_pathology_manifest`, as structured
values: the two case-identifier checks, and the required-columns check that
carries the list of missing columns it reports. -/
inductive ManifestError where
  | caseIdMissingFiltered
  | caseIdMissingPathology
  | missingRequired (cols : List String)
deriving DecidableEq

/-- The join steps 1-3 of `generate_pathology_manifest`, reached once the
schema checks have passed: case identifiers whose `Available Images` value
contains the substring `"Pathology"` are collected (`na=False`: a missing
value does not match), the asset table is restricted to those cases and to
the required columns, and the clinical frame is left-joined to it on
`Case ID` (pandas `merge(how='left')`): each clinical row yields one output
row per matching asset row, or a single output row with missing asset cells
when no asset matches; rows whose join key is missing match nothing.  The
model assumes the only column name shared by the two frames is the join key,
as in the repository's data. -/
def manifest_join (filtered_df pathology_data : Table) : Table :=
  let filtered_case_ids :=
    ((filtered_df.rows.filter (fun r =>
        match getC r "Available Images" with
        | some s => substrB "Pathology" s
        | none => false)).map (fun r => getC r "Case ID")).dedup
  let pathology_manifest :=
    (pathology_data.rows.filter (fun r => filtered_case_ids.contains (getC r "Case ID"))).map
      (fun r => required_columns.map (fun c => (c, getC r c)))
  let mergedRows := filtered_df.rows.flatMap (fun lr =>
    let ms := pathology_manifest.filter (fun rr =>
      match getC lr "Case ID", getC rr "Case ID" with
      | some a, some b => a == b
      | _, _ => false)
    match ms with
    | [] => [lr ++ (required_columns.filter (fun c => c ≠ "Case ID")).map (fun c => (c, (none : Option String)))]
    | _ => ms.map (fun rr => lr ++ rr.filter (fun p => p.1 ≠ "Case ID")))
  ⟨filtered_df.cols ++ required_columns.filter (fun c => c ≠ "Case ID"), mergedRows⟩

/-- `generate_pathology_manifest` (tcia-cohort-builder.py 239-279).  Checks
run in source order: `Case ID` present in the clinical frame, `Case ID`
present in the asset frame, then all `required_columns` present in the asset
frame (the error reports every missing one); once the checks pass, the
output is `manifest_join`. -/
def generate_pathology_manifest (filtered_df pathology_data : Table) :
    Except ManifestError Table :=
  if "Case ID" ∉ filtered_df.cols then .error .caseIdMissingFiltered
  else if "Case ID" ∉ pathology_data.cols then .error .caseIdMissingPathology
  else if (required_columns.filter (fun c => decide (c ∉ pathology_data.cols))).isEmpty then
    .ok (manifest_join filtered_df pathology_data)
  else
    .error (.missingRequired (required_columns.filter (fun c => decide (c ∉ pathology_data.cols))))

/-! ### Column resolver (`load_manifest`, pathology-downloader.py 11-46) -/

/-- The `ValueError`s raised by `load_manifest`. -/
inductive LoadError where
  | noUrlColumn
  | noPatientIdColumn
deriving DecidableEq

/-- The `url_columns` alias list of `load_manifest`, in priority order. -/
def url_columns : List String :=
  ["imageUrl", "image_url", "url", "Image URL"]

/-- The `patient_id_columns` alias list of `load_manifest`, in priority order
(the source repeats `"Case ID"`). -/
def patient_id_columns : List String :=
  ["Case ID", "Patient ID", "case_id", "Case ID"]

/-- `load_manifest` (pathology-downloader.py 11-46): pick the first alias of
each logical field present among the table's columns (`next(...)`), fail if a
required field has no alias present (URL first, then patient ID), and
otherwise rename the chosen columns to the canonical `imageUrl` / `Case ID`
and return just those two columns. -/
def load_manifest (df : Table) : Except LoadError Table :=
  let url_column := url_columns.find? (fun c => decide (c ∈ df.cols))
  let patient_id_column := patient_id_columns.find? (fun c => decide (c ∈ df.cols))
  match url_column, patient_id_column with
  | none, _ => .error .noUrlColumn
  | some _, none => .error .noPatientIdColumn
  | some u, some p =>
    .ok ⟨["imageUrl", "Case ID"],
      df.rows.map (fun r => [("imageUrl", getC r u), ("Case ID", getC r p)])⟩

/-! ### Asset fetcher (`PathologyDownloadThread.run`,
pathology-downloader.py 62-91) -/

/-- A row of the download manifest as accessed by the loop
(`row['imageUrl']`, `row['Case ID']`). -/
structure ManRow where
  imageUrl : String
  caseId : String
deriving DecidableEq

/-- The outcome of one row's `try` body (directory creation, HTTP GET with
`raise_for_status`, file write): either everything succeeded, or some
exception was raised, carrying `str(e)`. -/
inductive RowOutcome where
  | success
  | failure (reason : String)
deriving DecidableEq

/-- The signals the thread emits: `progress_signal.emit(idx, total, msg)` and
`complete_signal.emit(success)`. -/
inductive Event where
  | progress (current total : ℕ) (message : String)
  | complete (success : Bool)
deriving DecidableEq

/-- The literal marker `'/ross/'` used to derive the destination sub-path. -/
def ross_marker : List Char :=
  "/ross/".data

/-- The tail after the first occurrence of `m` in the list, scanning left to
right; `none` when `m` does not occur. -/
def afterFirst (m : List Char) : List Char → Option (List Char)
  | [] => none
  | c :: cs =>
    if m.isPrefixOf (c :: cs) then some (List.drop m.length (c :: cs))
    else afterFirst m cs

/-- `url.split('/ross/', 1)[-1]`: everything after the first occurrence of
the marker, or the whole string when the marker is absent. -/
def sub_path (url : String) : String :=
  match afterFirst ross_marker url.data with
  | some t => ⟨t⟩
  | none => url

/-- `os.path.join(a, b)` for the cases arising here: an absolute second
component replaces the first; otherwise the components are joined with a
single separator. -/
def path_join (a b : String) : String :=
  if b.data.head? = some '/' then b
  else if a = "" then b
  else if a.data.getLast? = some '/' then a ++ b
  else a ++ "/" ++ b

/-- The destination path of one row: download directory joined with the
derived sub-path. -/
def file_path (dir url : String) : String :=
  path_join dir (sub_path url)

/-- `PathologyDownloadThread.run` (pathology-downloader.py 62-91), with the
per-row I/O outcome supplied by `oracle` (indexed by 0-based row position):
each row, in table order, emits exactly one progress signal — `"Downloaded:
<file_path>"` on success, `"Failed to download <Case ID>: <reason>"` when the
`try` body raised — and after the loop the completion signal is emitted with
`True` unconditionally. -/
def run (rows : List ManRow) (dir : String) (oracle : ℕ → RowOutcome) : List Event :=
  (rows.enum.map (fun ir =>
    match oracle ir.1 with
    | .success =>
        Event.progress (ir.1 + 1) rows.length ("Downloaded: " ++ file_path dir ir.2.imageUrl)
    | .failure reason =>
        Event.progress (ir.1 + 1) rows.length
          ("Failed to download " ++ ir.2.caseId ++ ": " ++ reason)))
  ++ [Event.complete true]

/-! ### Concrete tables used by the example / counterexample theorems -/

/-- Columns of the two-age-column table of the spec's age example. -/
def c2_cols : List String :=
  ["Age at Diagnosis", "Age at Surgery"]

/-- A row with raw ages 600 and 51 whose (single) `Age UOM` value is
`"Month"`. -/
def c2_rowM : RawRow :=
  ⟨[("Age at Diagnosis", .num 600), ("Age at Surgery", .num 51)], some "Month"⟩

/-- The same raw ages with `Age UOM` value `"Year"`. -/
def c2_rowY : RawRow :=
  ⟨[("Age at Diagnosis", .num 600), ("Age at Surgery", .num 51)], some "Year"⟩

/-- The spec's two-case clinical table: case `A` has pathology imagery, case
`B` does not. -/
def c1_filtered : Table :=
  ⟨["Case ID", "Available Images"],
   [[("Case ID", some "A"), ("Available Images", some "Radiology; Pathology")],
    [("Case ID", some "B"), ("Available Images", some "Radiology")]]⟩

/-- The single asset row for case `A`, carrying all required metadata
columns. -/
def c1_assetRow : List (String × Option String) :=
  [("Case ID", some "A"), ("imageId", some "img1"), ("slideId", some "sl1"),
   ("imageHeight", some "100"), ("imagedWidth", some "200"),
   ("physicalPixelSizeX", some "0.25"), ("physicalPixelSizeY", some "0.25"),
   ("imageUrl", some "https://h/ross/a.svs"),
   ("created", some "2020"), ("changed", some "2021")]

/-- The asset table of the spec's manifest example: exactly one row, for
case `A`. -/
def c1_pathology : Table :=
  ⟨required_columns, [c1_assetRow]⟩

/-- What `generate_pathology_manifest` actually returns on the spec's
manifest example: case `A` joined with its asset row, and case `B` retained
by the left join with every asset column missing. -/
def c1_expected : Table :=
  ⟨["Case ID", "Available Images", "imageId", "slideId", "imageHeight", "imagedWidth",
    "physicalPixelSizeX", "physicalPixelSizeY", "imageUrl", "created", "changed"],
   [[("Case ID", some "A"), ("Available Images", some "Radiology; Pathology"),
     ("imageId", some "img1"), ("slideId", some "sl1"), ("imageHeight", some "100"),
     ("imagedWidth", some "200"), ("physicalPixelSizeX", some "0.25"),
     ("physicalPixelSizeY", some "0.25"), ("imageUrl", some "https://h/ross/a.svs"),
     ("created", some "2020"), ("changed", some "2021")],
    [("Case ID", some "B"), ("Available Images", some "Radiology"),
     ("imageId", none), ("slideId", none), ("imageHeight", none), ("imagedWidth", none),
     ("physicalPixelSizeX", none), ("physicalPixelSizeY", none), ("imageUrl", none),
     ("created", none), ("changed", none)]]⟩

/-- An asset table missing both `Case ID` and `imageId` (among others). -/
def c7_sansCase : Table :=
  ⟨["slideId"], []⟩

/-- An asset table that has `Case ID` but no other required column. -/
def c7_caseOnly : Table :=
  ⟨["Case ID"], []⟩

/-- A manifest table whose only URL-alias column is `image_url`. -/
def c8_df : Table :=
  ⟨["image_url", "Case ID"],
   [[("image_url", some "http://x/1.svs"), ("Case ID", some "A")]]⟩

/-- A clinical row with no categorical cells and a missing age. -/
def c3_rowNone : ClinRow :=
  ⟨[], none⟩

/-- A clinical row with a `Race` value and age 40. -/
def c5_row : ClinRow :=
  ⟨[("Race", some "White")], some 40⟩

/-- A two-row download manifest. -/
def c9_rows : List ManRow :=
  [⟨"https://h/ross/a.svs", "A"⟩, ⟨"https://h/ross/b.svs", "B"⟩]

/-- An I/O oracle under which the first row's download raises and the second
succeeds. -/
def c9_oracle : ℕ → RowOutcome :=
  fun i => if i = 0 then .failure "404 Client Error" else .success

/-! ### Helper lemmas -/

/-- The categorical stage of `filter_dataframe` is a single `List.filter` by
the conjunction of all the per-column membership tests. -/
theorem cat_foldl_eq_filter (fs : List (String × List String)) (df : List ClinRow) :
    fs.foldl catStep df = df.filter (rowPassCats fs) := by
  induction fs generalizing df with
  | nil =>
    have h : rowPassCats [] = fun _ => true := rfl
    rw [List.foldl_nil, h, List.filter_true]
  | cons cf fs ih =>
    rw [List.foldl_cons, ih, catStep]
    by_cases h : cf.2.isEmpty
    · rw [if_pos h]
      apply List.filter_congr
      intro r _
      simp [rowPassCats, h]
    · rw [if_neg h, List.filter_filter]
      apply List.filter_congr
      intro r _
      rw [Bool.not_eq_true] at h
      simp [rowPassCats, h, Bool.and_comm]

/-- `filter_dataframe` with no age range is just the categorical stage. -/
theorem filter_dataframe_none (df : List ClinRow) (fs : List (String × List String)) (b : Bool) :
    filter_dataframe df fs none b = df.filter (rowPassCats fs) := by
  unfold filter_dataframe
  exact cat_foldl_eq_filter fs df

/-- With the default range the age stage is skipped entirely. -/
theorem filter_dataframe_default (df : List ClinRow) (fs : List (String × List String))
    (rng : Option (ℚ × ℚ)) :
    filter_dataframe df fs rng true = filter_dataframe df fs none true := by
  unfold filter_dataframe
  rcases rng with _ | ⟨mn, mx⟩ <;> simp

/-- With minimum exactly 0, `filter_dataframe` is the categorical result
restricted by `agePass0`. -/
theorem filter_dataframe_age0 (df : List ClinRow) (fs : List (String × List String)) (mx : ℚ) :
    filter_dataframe df fs (some (0, mx)) false =
      (filter_dataframe df fs none false).filter (agePass0 mx) := by
  unfold filter_dataframe
  simp

/-- With a nonzero minimum, `filter_dataframe` is the categorical result
restricted by `agePassPos`. -/
theorem filter_dataframe_agePos (df : List ClinRow) (fs : List (String × List String))
    (mn mx : ℚ) (h : mn ≠ 0) :
    filter_dataframe df fs (some (mn, mx)) false =
      (filter_dataframe df fs none false).filter (agePassPos mn mx) := by
  unfold filter_dataframe
  simp [h]

/-- `filter_dataframe` is a single `List.filter` by the combined row
predicate. -/
theorem filter_dataframe_eq_filter (df : List ClinRow) (fs : List (String × List String))
    (rng : Option (ℚ × ℚ)) (b : Bool) :
    filter_dataframe df fs rng b = df.filter (fun r => rowPassCats fs r && ageGate rng b r) := by
  rcases rng with _ | ⟨mn, mx⟩
  · rw [filter_dataframe_none]
    apply List.filter_congr
    intro r _
    simp [ageGate]
  · cases b with
    | true =>
      rw [filter_dataframe_default, filter_dataframe_none]
      apply List.filter_congr
      intro r _
      simp [ageGate]
    | false =>
      by_cases hmn : mn = 0
      · subst hmn
        rw [filter_dataframe_age0, filter_dataframe_none, List.filter_filter]
        apply List.filter_congr
        intro r _
        simp [ageGate, Bool.and_comm]
      · rw [filter_dataframe_agePos df fs mn mx hmn, filter_dataframe_none, List.filter_filter]
        apply List.filter_congr
        intro r _
        simp [ageGate, hmn, Bool.and_comm]

/-- Characterization of the `isin` row test. -/
theorem cellPass_eq_true (r : ClinRow) (c : String) (vs : List String) :
    cellPass r c vs = true ↔ ∃ v, r.cells.lookup c = some (some v) ∧ v ∈ vs := by
  unfold cellPass
  cases h : r.cells.lookup c with
  | none => simp
  | some o =>
    cases o with
    | none => simp
    | some v => simp [List.contains, List.elem_iff]

/-- Characterization of the zero-minimum age test. -/
theorem agePass0_eq_true (mx : ℚ) (r : ClinRow) :
    agePass0 mx r = true ↔ r.age = none ∨ ∃ a, r.age = some a ∧ a ≤ mx := by
  unfold agePass0
  cases h : r.age <;> simp [h]

/-- Characterization of the positive-minimum age test. -/
theorem agePassPos_eq_true (mn mx : ℚ) (r : ClinRow) :
    agePassPos mn mx r = true ↔ ∃ a, r.age = some a ∧ mn ≤ a ∧ a ≤ mx := by
  unfold agePassPos
  cases h : r.age <;> simp [h]

/-- `minStep` yields missing exactly when both inputs are missing. -/
theorem minStep_eq_none (acc x : Option ℚ) :
    minStep acc x = none ↔ acc = none ∧ x = none := by
  cases acc <;> cases x <;> simp [minStep]

/-- The skip-missing minimum fold is missing iff the accumulator and every
element are missing. -/
theorem minFold_eq_none (xs : List (Option ℚ)) (acc : Option ℚ) :
    xs.foldl minStep acc = none ↔ acc = none ∧ ∀ x ∈ xs, x = none := by
  induction xs generalizing acc with
  | nil => simp
  | cons x xs ih =>
    rw [List.foldl_cons, ih, minStep_eq_none]
    simp only [List.forall_mem_cons]
    tauto

/-- When the skip-missing minimum fold yields a value, that value is the
accumulator or one of the elements, and it is a lower bound for both. -/
theorem minFold_some :
    ∀ (xs : List (Option ℚ)) (acc : Option ℚ) (m : ℚ),
      xs.foldl minStep acc = some m →
      (acc = some m ∨ some m ∈ xs) ∧ (∀ a, acc = some a → m ≤ a) ∧
        (∀ q, some q ∈ xs → m ≤ q)
  | [], acc, m, h => by
    rw [List.foldl_nil] at h
    refine ⟨Or.inl h, ?_, ?_⟩
    · intro a ha
      rw [h] at ha
      cases ha
      exact le_refl m
    · intro q hq
      simp at hq
  | x :: xs, acc, m, h => by
    rw [List.foldl_cons] at h
    obtain ⟨hmem, hacc, hxs⟩ := minFold_some xs (minStep acc x) m h
    refine ⟨?_, ?_, ?_⟩
    · rcases hmem with hs | hin
      · cases acc with
        | none =>
          cases x with
          | none => simp [minStep] at hs
          | some b =>
            simp [minStep] at hs
            exact Or.inr (by simp [hs])
        | some a =>
          cases x with
          | none =>
            simp [minStep] at hs
            exact Or.inl (by simp [hs])
          | some b =>
            simp [minStep] at hs
            rcases min_choice a b with hc | hc
            · exact Or.inl (by rw [← hs, hc])
            · exact Or.inr (by rw [← hs, hc]; exact List.mem_cons_self _ _)
      · exact Or.inr (List.mem_cons_of_mem _ hin)
    · intro a ha
      cases x with
      | none => exact hacc a (by rw [ha]; rfl)
      | some b =>
        have hm := hacc (min a b) (by rw [ha]; rfl)
        exact hm.trans (min_le_left a b)
    · intro q hq
      rcases List.mem_cons.mp hq with hx | hin
      · cases acc with
        | none => exact hacc q (by rw [← hx]; rfl)
        | some a =>
          have hm := hacc (min a q) (by rw [← hx]; rfl)
          exact hm.trans (min_le_right a q)
      · exact hxs q hin

/-- `find?` returns the first element of a decomposed list satisfying the
membership test, when everything before it fails the test. -/
theorem find_first_present (cols : List String) :
    ∀ (pre : List String) (u : String) (suf : List String),
      (∀ c ∈ pre, c ∉ cols) → u ∈ cols →
      (pre ++ u :: suf).find? (fun c => decide (c ∈ cols)) = some u
  | [], u, suf, _, hu => by
    rw [List.nil_append]
    exact List.find?_cons_of_pos _ (by simpa using hu)
  | c :: pre, u, suf, hpre, hu => by
    rw [List.cons_append, List.find?_cons_of_neg _ (by simpa using hpre c (List.mem_cons_self c pre))]
    exact find_first_present cols pre u suf
      (fun d hd => hpre d (List.mem_cons_of_mem c hd)) hu

/-- When the marker occurs nowhere in the list (at any offset), `afterFirst`
finds nothing. -/
theorem afterFirst_eq_none (m : List Char) :
    ∀ l : List Char,
      (∀ i, i < l.length → ¬ m.isPrefixOf (l.drop i) = true) → afterFirst m l = none
  | [], _ => rfl
  | c :: cs, h => by
    rw [afterFirst, if_neg (by simpa using h 0 (by simp))]
    exact afterFirst_eq_none m cs
      (fun i hi => by simpa using h (i + 1) (by simpa using Nat.succ_lt_succ hi))

/-- When the list decomposes as `pre ++ m ++ post` with no occurrence of `m`
starting inside `pre`, `afterFirst` returns exactly `post`. -/
theorem afterFirst_decomp (m : List Char) (hm : m ≠ []) :
    ∀ (pre post : List Char),
      (∀ i, i < pre.length → ¬ m.isPrefixOf ((pre ++ (m ++ post)).drop i) = true) →
      afterFirst m (pre ++ (m ++ post)) = some post
  | [], post, _ => by
    rw [List.nil_append]
    cases m with
    | nil => exact absurd rfl hm
    | cons a as =>
      rw [List.cons_append, afterFirst,
        if_pos (List.isPrefixOf_iff_prefix.mpr (by rw [← List.cons_append]; exact List.prefix_append _ _))]
      rw [← List.cons_append, List.drop_left]
  | c :: pre, post, h => by
    rw [List.cons_append, afterFirst, if_neg (by simpa using h 0 (by simp))]
    exact afterFirst_decomp m hm pre post
      (fun i hi => by simpa using h (i + 1) (by simpa using Nat.succ_lt_succ hi))

/-- Row `i` of the derived `Age at Baseline` column, in closed form. -/
theorem calc_age_getElem (t : RawTable) (acs : List String) (i : ℕ) (r : RawRow)
    (h : t.rows[i]? = some r) :
    (calculate_age_at_baseline t acs)[i]? =
      some ((minSkipNA ((acs.filter (fun c => decide (c ∈ t.cols))).map
        (fun c => (toNumeric (cellOf r c)).map (fun q => q * uomFactor r.uom)))).map rnd1) := by
  simp only [calculate_age_at_baseline]
  rw [List.getElem?_map, h]
  rfl

/-- Evaluation rule for `rnd1` when the scaled value sits strictly below the
half-way point above `z`. -/
theorem rnd1_eval_lt (q : ℚ) (z : ℤ) (hle : (z : ℚ) ≤ 10 * q)
    (hlt : 10 * q - z < 1 / 2) :
    rnd1 q = z / 10 := by
  have hf : ⌊10 * q⌋ = z := Int.floor_eq_iff.mpr ⟨hle, by linarith⟩
  simp only [rnd1, roundHalfEvenZ, hf]
  rw [if_pos hlt]

/-- Evaluation rule for `rnd1` at an exact tie with an even floor: round
half-to-even keeps `z`. -/
theorem rnd1_eval_tie_even (q : ℚ) (z : ℤ) (hle : (z : ℚ) ≤ 10 * q)
    (htie : 10 * q - z = 1 / 2) (heven : z % 2 = 0) :
    rnd1 q = z / 10 := by
  have hf : ⌊10 * q⌋ = z := Int.floor_eq_iff.mpr ⟨hle, by linarith⟩
  simp only [rnd1, roundHalfEvenZ, hf]
  rw [if_neg (by rw [htie]; norm_num), if_neg (by rw [htie]; norm_num), if_pos heven]

/-- Evaluating the age pipeline on the month-unit example row: years values
50 and 4.25, minimum 4.25, rounded half-to-even to 4.2 = 21/5. -/
theorem c2_month_eval :
    calculate_age_at_baseline ⟨c2_cols, [c2_rowM]⟩ default_age_columns = [some (21 / 5)] := by
  have h0 : calculate_age_at_baseline ⟨c2_cols, [c2_rowM]⟩ default_age_columns
      = [(some (min (600 * (1 / 12 : ℚ)) (51 * (1 / 12 : ℚ)))).map rnd1] := rfl
  have hmin : min (600 * (1 / 12 : ℚ)) (51 * (1 / 12 : ℚ)) = 17 / 4 := by
    rw [min_eq_right (by norm_num)]
    norm_num
  have hr : rnd1 (17 / 4) = 21 / 5 := by
    rw [rnd1_eval_tie_even (17 / 4) 42 (by norm_num) (by norm_num) (by norm_num)]
    norm_num
  rw [h0, Option.map_some', hmin, hr]

/-- Evaluating the age pipeline on the year-unit example row: minimum 51,
rounded to 51.0. -/
theorem c2_year_eval :
    calculate_age_at_baseline ⟨c2_cols, [c2_rowY]⟩ default_age_columns = [some 51] := by
  have h0 : calculate_age_at_baseline ⟨c2_cols, [c2_rowY]⟩ default_age_columns
      = [(some (min (600 * (1 : ℚ)) (51 * (1 : ℚ)))).map rnd1] := rfl
  have hmin : min (600 * (1 : ℚ)) (51 * (1 : ℚ)) = 51 := by
    rw [min_eq_right (by norm_num)]
    norm_num
  have hr : rnd1 (51 : ℚ) = 51 := by
    rw [rnd1_eval_lt (51 : ℚ) 510 (by norm_num) (by norm_num)]
    norm_num
  rw [h0, Option.map_some', hmin, hr]

/-! ### The claims -/

/-- Claim C4: the unit-of-measure factor is selected from the row's
(normalized: lowercased and stripped, as the code does before matching) unit
string by substring: any string containing `"year"` maps to factor 1, any
other string containing `"month"` maps to 1/12, any other string containing
`"day"` maps to 1/365.25 (the exact rational 4/1461), and every remaining
string — including a missing unit — defaults to the year factor 1. -/
theorem claim_C4 (u : String) :
    (substrB "year" (strStrip (strLower u)) = true → uomFactor (some u) = 1)
  ∧ (substrB "year" (strStrip (strLower u)) = false →
      substrB "month" (strStrip (strLower u)) = true → uomFactor (some u) = 1 / 12)
  ∧ (substrB "year" (strStrip (strLower u)) = false →
      substrB "month" (strStrip (strLower u)) = false →
      substrB "day" (strStrip (strLower u)) = true → uomFactor (some u) = 4 / 1461)
  ∧ (substrB "year" (strStrip (strLower u)) = false →
      substrB "month" (strStrip (strLower u)) = false →
      substrB "day" (strStrip (strLower u)) = false → uomFactor (some u) = 1)
  ∧ uomFactor none = 1 := by
  have hy : (age_uom_factors "Year").getD 1 = 1 := rfl
  have hm : (age_uom_factors "Month").getD 1 = 1 / 12 := rfl
  have hd : (age_uom_factors "Day").getD 1 = 4 / 1461 := rfl
  refine ⟨?_, ?_, ?_, ?_, rfl⟩
  · intro h1
    simp only [uomFactor, h1, if_true, hy]
  · intro h1 h2
    simp only [uomFactor, h1, h2, if_true, Bool.false_eq_true, if_false, hm]
  · intro h1 h2 h3
    simp only [uomFactor, h1, h2, h3, if_true, Bool.false_eq_true, if_false, hd]
  · intro h1 h2 h3
    simp only [uomFactor, h1, h2, h3, Bool.false_eq_true, if_false]

/-- Witness for C4: a concrete unit string `"Months"` gets the month
factor. -/
theorem claim_C4_witness : uomFactor (some "Months") = 1 / 12 :=
  (claim_C4 "Months").2.1 (by decide) (by decide)

/-- Counterexample for C2: the claim's example row (raw ages 600 and 51)
cannot carry two different units, because the code reads a single `Age UOM`
value per row and applies its factor to every age column.  Reading the
example's row with unit `"Month"` gives `4.2` (= round(min(50, 4.25), 1)),
and with unit `"Year"` gives `51.0` — never the claimed `50.0`. -/
theorem claim_C2_counterexample :
    calculate_age_at_baseline ⟨c2_cols, [c2_rowM]⟩ default_age_columns = [some (21 / 5)]
  ∧ calculate_age_at_baseline ⟨c2_cols, [c2_rowY]⟩ default_age_columns = [some 51]
  ∧ (21 / 5 : ℚ) ≠ 50 ∧ (51 : ℚ) ≠ 50 :=
  ⟨c2_month_eval, c2_year_eval, by norm_num, by norm_num⟩

/-- Claim C2 (amended): for every row, `Age at Baseline` is the minimum,
over the raw age columns present in the table, of the column's numeric value
times the row's single unit-of-measure factor, rounded (half-to-even) to one
decimal place; non-numeric raw values are treated as absent rather than
raising an error, and a row in which every raw age column is absent or
non-numeric gets an absent (`none`) value — distinguishable from zero by
construction.  In particular the row with `Age at Diagnosis` 600 and
`Age at Surgery` 51 whose `Age UOM` is `"Month"` gets `4.2` (years values 50
and 4.25), not `50.0`. -/
theorem claim_C2 (t : RawTable) (acs : List String) (i : ℕ) (r : RawRow)
    (h : t.rows[i]? = some r) :
    (∃ v, (calculate_age_at_baseline t acs)[i]? = some v
      ∧ (v = none ↔ ∀ c ∈ acs, c ∈ t.cols → toNumeric (cellOf r c) = none)
      ∧ (∀ y, v = some y →
          ∃ c ∈ acs, c ∈ t.cols ∧ ∃ q, toNumeric (cellOf r c) = some q ∧
            y = rnd1 (q * uomFactor r.uom) ∧
            ∀ c2 ∈ acs, c2 ∈ t.cols → ∀ q2, toNumeric (cellOf r c2) = some q2 →
              q * uomFactor r.uom ≤ q2 * uomFactor r.uom))
  ∧ calculate_age_at_baseline ⟨c2_cols, [c2_rowM]⟩ default_age_columns = [some (21 / 5)] := by
  refine ⟨?_, c2_month_eval⟩
  refine ⟨(minSkipNA ((acs.filter (fun c => decide (c ∈ t.cols))).map
    (fun c => (toNumeric (cellOf r c)).map (fun q => q * uomFactor r.uom)))).map rnd1,
    calc_age_getElem t acs i r h, ?_, ?_⟩
  · constructor
    · intro hv
      have hnone : minSkipNA ((acs.filter (fun c => decide (c ∈ t.cols))).map
          (fun c => (toNumeric (cellOf r c)).map (fun q => q * uomFactor r.uom))) = none :=
        Option.map_eq_none'.mp hv
      rw [minSkipNA, minFold_eq_none] at hnone
      intro c hc hcc
      have hgc := hnone.2 ((toNumeric (cellOf r c)).map (fun q => q * uomFactor r.uom))
        (List.mem_map_of_mem _ (List.mem_filter.mpr ⟨hc, by simpa using hcc⟩))
      exact Option.map_eq_none'.mp hgc
    · intro hall
      have hmapped : ∀ x ∈ (acs.filter (fun c => decide (c ∈ t.cols))).map
          (fun c => (toNumeric (cellOf r c)).map (fun q => q * uomFactor r.uom)), x = none := by
        intro x hx
        obtain ⟨c, hc, rfl⟩ := List.mem_map.mp hx
        obtain ⟨hca, hcc⟩ := List.mem_filter.mp hc
        rw [hall c hca (by simpa using hcc)]
        rfl
      rw [show minSkipNA ((acs.filter (fun c => decide (c ∈ t.cols))).map
          (fun c => (toNumeric (cellOf r c)).map (fun q => q * uomFactor r.uom))) = none from
        (minFold_eq_none _ _).mpr ⟨rfl, hmapped⟩]
      rfl
  · intro y hy
    obtain ⟨m, hm, hym⟩ := Option.map_eq_some'.mp hy
    obtain ⟨hmem, -, hbound⟩ := minFold_some _ none m hm
    rcases hmem with hx | hx
    · exact absurd hx (by simp)
    · obtain ⟨c, hc, hgc⟩ := List.mem_map.mp hx
      obtain ⟨hca, hcc⟩ := List.mem_filter.mp hc
      obtain ⟨q, hq, hqm⟩ := Option.map_eq_some'.mp hgc
      refine ⟨c, hca, by simpa using hcc, q, hq, ?_, ?_⟩
      · rw [← hym, hqm]
      · intro c2 hc2 hcc2 q2 hq2
        have hmem2 : some (q2 * uomFactor r.uom) ∈
            (acs.filter (fun c => decide (c ∈ t.cols))).map
              (fun c => (toNumeric (cellOf r c)).map (fun q => q * uomFactor r.uom)) :=
          List.mem_map.mpr ⟨c2, List.mem_filter.mpr ⟨hc2, by simpa using hcc2⟩, by rw [hq2]; rfl⟩
        have hb := hbound _ hmem2
        rw [hqm]
        exact hb

/-- Witness for C2: the amended theorem applied to the concrete one-row
`"Month"` table. -/
theorem claim_C2_witness :
    ∃ v, (calculate_age_at_baseline ⟨c2_cols, [c2_rowM]⟩ default_age_columns)[0]? = some v := by
  obtain ⟨⟨v, hv, -, -⟩, -⟩ :=
    claim_C2 ⟨c2_cols, [c2_rowM]⟩ default_age_columns 0 c2_rowM rfl
  exact ⟨v, hv⟩

/-- Claim C3: `filter_dataframe` applies the age-range filter only when the
`is_default_age_range` flag is false (with the default range the age filter
imposes no constraint at all); when applied with minimum exactly 0 a row is
kept iff it survives the categorical stage and its `Age at Baseline` is
absent or at most the maximum; when applied with minimum greater than 0 a
row is kept iff it survives the categorical stage and its `Age at Baseline`
is present and within the inclusive range, so absent-age rows are
excluded. -/
theorem claim_C3 (df : List ClinRow) (fs : List (String × List String))
    (mn mx : ℚ) (r : ClinRow) :
    (∀ rng, filter_dataframe df fs rng true = filter_dataframe df fs none true)
  ∧ (mn = 0 → (r ∈ filter_dataframe df fs (some (mn, mx)) false ↔
      r ∈ filter_dataframe df fs none false ∧
        (r.age = none ∨ ∃ a, r.age = some a ∧ a ≤ mx)))
  ∧ (0 < mn → (r ∈ filter_dataframe df fs (some (mn, mx)) false ↔
      r ∈ filter_dataframe df fs none false ∧
        ∃ a, r.age = some a ∧ mn ≤ a ∧ a ≤ mx)) := by
  refine ⟨fun rng => filter_dataframe_default df fs rng, ?_, ?_⟩
  · intro h0
    subst h0
    rw [filter_dataframe_age0, List.mem_filter, agePass0_eq_true]
  · intro hpos
    rw [filter_dataframe_agePos df fs mn mx (ne_of_gt hpos), List.mem_filter,
      agePassPos_eq_true]

/-- Witness for C3: with range `(0, 40)` and the flag off, a row with an
absent age is kept. -/
theorem claim_C3_witness :
    c3_rowNone ∈ filter_dataframe [c3_rowNone] [] (some (0, 40)) false :=
  ((claim_C3 [c3_rowNone] [] 0 40 c3_rowNone).2.1 rfl).mpr
    ⟨by decide, Or.inl rfl⟩

/-- Claim C5: for every source table and filter specification (restricted,
as in the dashboard, to filter columns that exist in the table — in pandas a
non-empty filter on a missing column raises instead), `filter_dataframe`
keeps exactly the rows whose value for each column with a non-empty
accepted-value set is a member of that set (AND across columns; an empty set
imposes no constraint), and the kept rows form a sublist of the source, so
the original relative order is preserved; being a Lean function of its
arguments, the model also exhibits the claimed purity and non-mutation. -/
theorem claim_C5 (df : List ClinRow) (fs : List (String × List String))
    (rng : Option (ℚ × ℚ)) (b : Bool) (r : ClinRow)
    (hcols : ∀ cf ∈ fs, cf.2 ≠ [] → ∀ r2 ∈ df, (r2.cells.lookup cf.1).isSome = true) :
    (filter_dataframe df fs rng b).Sublist df
  ∧ (r ∈ filter_dataframe df fs none b ↔
      r ∈ df ∧ ∀ cf ∈ fs, cf.2 ≠ [] →
        ∃ v, r.cells.lookup cf.1 = some (some v) ∧ v ∈ cf.2) := by
  constructor
  · rw [filter_dataframe_eq_filter]
    exact List.filter_sublist df
  · rw [filter_dataframe_none, List.mem_filter]
    constructor
    · rintro ⟨hdf, hpass⟩
      refine ⟨hdf, ?_⟩
      intro cf hcf hne
      have hpass2 : fs.all (fun cf => cf.2.isEmpty || cellPass r cf.1 cf.2) = true := hpass
      have hor := List.all_eq_true.mp hpass2 cf hcf
      rw [Bool.or_eq_true] at hor
      rcases hor with he | hcp
      · exact absurd (List.isEmpty_iff.mp he) hne
      · exact (cellPass_eq_true r cf.1 cf.2).mp hcp
    · rintro ⟨hdf, hex⟩
      refine ⟨hdf, ?_⟩
      show fs.all (fun cf => cf.2.isEmpty || cellPass r cf.1 cf.2) = true
      apply List.all_eq_true.mpr
      intro cf hcf
      rw [Bool.or_eq_true]
      by_cases hne : cf.2 = []
      · exact Or.inl (by simp [hne])
      · exact Or.inr ((cellPass_eq_true r cf.1 cf.2).mpr (hex cf hcf hne))

/-- Witness for C5: on a concrete one-row table with a `Race` filter, the
result is a sublist of the source. -/
theorem claim_C5_witness :
    (filter_dataframe [c5_row] [("Race", ["White"])] none false).Sublist [c5_row] :=
  (claim_C5 [c5_row] [("Race", ["White"])] none false c5_row (by decide)).1

/-- Claim C6: applying `filter_dataframe` twice with the same specification
equals applying it once, and applying it with an empty categorical-filter
mapping and the default age range returns the input table unchanged. -/
theorem claim_C6 (df : List ClinRow) (fs : List (String × List String))
    (rng : Option (ℚ × ℚ)) (b : Bool) :
    filter_dataframe (filter_dataframe df fs rng b) fs rng b = filter_dataframe df fs rng b
  ∧ ∀ rng2, filter_dataframe df [] rng2 true = df := by
  constructor
  · rw [filter_dataframe_eq_filter (filter_dataframe df fs rng b) fs rng b,
      filter_dataframe_eq_filter df fs rng b, List.filter_filter]
    apply List.filter_congr
    intro x _
    exact Bool.and_self _
  · intro rng2
    rw [filter_dataframe_default, filter_dataframe_none]
    have h : rowPassCats [] = fun _ => true := rfl
    rw [h, List.filter_true]

/-- Counterexample for C1: on the spec's two-case input the manifest has TWO
rows, not one, and case `B` does appear in the output (pandas
`merge(how='left')` keeps unmatched clinical rows). -/
theorem claim_C1_counterexample :
    (generate_pathology_manifest c1_filtered c1_pathology).map (fun t => t.rows.length) =
      .ok 2
  ∧ (generate_pathology_manifest c1_filtered c1_pathology).map
      (fun t => t.rows.map (fun r => getC r "Case ID")) = .ok [some "A", some "B"] :=
  ⟨rfl, rfl⟩

/-- Claim C1 (amended): on the spec's two-case input,
`generate_pathology_manifest` returns exactly two rows — case `A`'s clinical
row joined with its asset row, and case `B`'s clinical row retained by the
left join with every asset metadata column absent.  Exactly one output row
(the one for `A`) carries asset data; `B`'s row has a missing `imageUrl`. -/
theorem claim_C1 :
    generate_pathology_manifest c1_filtered c1_pathology = .ok c1_expected
  ∧ (c1_expected.rows.filter (fun r => (getC r "imageUrl").isSome)).length = 1
  ∧ getC (c1_expected.rows.getD 1 []) "Case ID" = some "B"
  ∧ getC (c1_expected.rows.getD 1 []) "imageUrl" = none :=
  ⟨rfl, rfl, rfl, rfl⟩

/-- Counterexample for C7: when `Case ID` itself is among the required
columns missing from the asset table, the function raises the
`Case ID`-specific error first, which does not enumerate the other missing
required columns (here `imageId` is also missing but unreported). -/
theorem claim_C7_counterexample :
    "Case ID" ∉ c7_sansCase.cols ∧ "imageId" ∉ c7_sansCase.cols
  ∧ generate_pathology_manifest c1_filtered c7_sansCase = .error .caseIdMissingPathology
  ∧ ManifestError.caseIdMissingPathology ≠
      .missingRequired (required_columns.filter (fun x => decide (x ∉ c7_sansCase.cols))) :=
  ⟨by decide, by decide, rfl, by decide⟩

/-- Claim C7 (amended): when both inputs do have the `Case ID` column and
some other required column is absent from the asset table, the raised error
enumerates every missing required column, not just the first; if `Case ID`
itself is missing from the asset table, the `Case ID`-specific error is
raised instead, without the enumeration. -/
theorem claim_C7 (f p : Table) (hf : "Case ID" ∈ f.cols) (hp : "Case ID" ∈ p.cols)
    (c : String) (hc : c ∈ required_columns) (hmc : c ∉ p.cols) :
    generate_pathology_manifest f p =
      .error (.missingRequired (required_columns.filter (fun x => decide (x ∉ p.cols))))
  ∧ ∀ c2 ∈ required_columns, c2 ∉ p.cols →
      c2 ∈ required_columns.filter (fun x => decide (x ∉ p.cols)) := by
  have hmem : c ∈ required_columns.filter (fun x => decide (x ∉ p.cols)) :=
    List.mem_filter.mpr ⟨hc, by simpa using hmc⟩
  constructor
  · unfold generate_pathology_manifest
    rw [if_neg (not_not_intro hf), if_neg (not_not_intro hp),
      if_neg (by rw [List.isEmpty_iff]; exact List.ne_nil_of_mem hmem)]
  · intro c2 hc2 hmc2
    exact List.mem_filter.mpr ⟨hc2, by simpa using hmc2⟩

/-- Witness for C7: an asset table with only a `Case ID` column yields the
enumerating error listing all nine other required columns. -/
theorem claim_C7_witness :
    generate_pathology_manifest c1_filtered c7_caseOnly =
      .error (.missingRequired ["imageId", "slideId", "imageHeight", "imagedWidth",
        "physicalPixelSizeX", "physicalPixelSizeY", "imageUrl", "created", "changed"]) := by
  have h := (claim_C7 c1_filtered c7_caseOnly (by decide) (by decide) "imageId"
    (by decide) (by decide)).1
  have h2 : required_columns.filter (fun x => decide (x ∉ c7_caseOnly.cols)) =
      ["imageId", "slideId", "imageHeight", "imagedWidth",
       "physicalPixelSizeX", "physicalPixelSizeY", "imageUrl", "created", "changed"] := by
    decide
  rw [h2] at h
  exact h

/-- Claim C8: `load_manifest` resolves each logical field to the first alias
(in priority order) present among the table's columns, renaming it to the
canonical name and selecting just the canonical columns; when no alias of a
required field is present it fails with the error naming that field, and the
failure depends only on the column set, not on the rows (fail fast, before
any row is processed).  In particular a table whose only URL alias is
`image_url` resolves to canonical name `imageUrl`. -/
theorem claim_C8 (df : Table) (u pid : String) (pre1 suf1 pre2 suf2 : List String) :
    ((url_columns = pre1 ++ u :: suf1 ∧ (∀ c ∈ pre1, c ∉ df.cols) ∧ u ∈ df.cols ∧
      patient_id_columns = pre2 ++ pid :: suf2 ∧ (∀ c ∈ pre2, c ∉ df.cols) ∧
      pid ∈ df.cols) →
      load_manifest df = .ok ⟨["imageUrl", "Case ID"],
        df.rows.map (fun r => [("imageUrl", getC r u), ("Case ID", getC r pid)])⟩)
  ∧ ((∀ c ∈ url_columns, c ∉ df.cols) →
      ∀ rows2, load_manifest ⟨df.cols, rows2⟩ = .error .noUrlColumn)
  ∧ ((u ∈ url_columns ∧ u ∈ df.cols ∧ (∀ c ∈ patient_id_columns, c ∉ df.cols)) →
      ∀ rows2, load_manifest ⟨df.cols, rows2⟩ = .error .noPatientIdColumn)
  ∧ load_manifest c8_df = .ok ⟨["imageUrl", "Case ID"],
      [[("imageUrl", some "http://x/1.svs"), ("Case ID", some "A")]]⟩ := by
  refine ⟨?_, ?_, ?_, rfl⟩
  · rintro ⟨h1, h2, h3, h4, h5, h6⟩
    unfold load_manifest
    rw [h1, h4, find_first_present df.cols pre1 u suf1 h2 h3,
      find_first_present df.cols pre2 pid suf2 h5 h6]
  · intro hall rows2
    unfold load_manifest
    rw [List.find?_eq_none.mpr (fun x hx => by simpa using hall x hx)]
  · rintro ⟨hu, hucols, hall⟩ rows2
    unfold load_manifest
    have hsome : (url_columns.find? (fun c =>
        decide (c ∈ (⟨df.cols, rows2⟩ : Table).cols))).isSome = true :=
      List.find?_isSome.mpr ⟨u, hu, by simpa using hucols⟩
    obtain ⟨u2, hu2⟩ := Option.isSome_iff_exists.mp hsome
    rw [hu2, List.find?_eq_none.mpr (fun x hx => by simpa using hall x hx)]

/-- Witness for C8: the `image_url`-only table from the claim resolves to
canonical `imageUrl`, carrying the URL value over. -/
theorem claim_C8_witness :
    load_manifest c8_df = .ok ⟨["imageUrl", "Case ID"],
      [[("imageUrl", some "http://x/1.svs"), ("Case ID", some "A")]]⟩ :=
  (claim_C8 c8_df "image_url" "Case ID" ["imageUrl"] ["url", "Image URL"] []
    ["Patient ID", "case_id", "Case ID"]).2.2.2

/-- Claim C9: the fetch loop attempts every row exactly once in table order;
each row emits exactly one progress signal — carrying the 1-based count of
rows attempted so far, the total row count, and a message which on failure
is `"Failed to download <identifier>: <reason>"` — a failing row never
aborts the remaining rows, and after all rows the completion signal reports
success `true` regardless of how many rows failed (the oracle is
arbitrary). -/
theorem claim_C9 (rows : List ManRow) (dir : String) (oracle : ℕ → RowOutcome) :
    (run rows dir oracle).length = rows.length + 1
  ∧ (∀ (i : ℕ) (r : ManRow), rows[i]? = some r →
      (run rows dir oracle)[i]? = some (Event.progress (i + 1) rows.length
        (match oracle i with
         | .success => "Downloaded: " ++ file_path dir r.imageUrl
         | .failure reason => "Failed to download " ++ r.caseId ++ ": " ++ reason)))
  ∧ (run rows dir oracle)[rows.length]? = some (Event.complete true) := by
  unfold run
  refine ⟨?_, ?_, ?_⟩
  · rw [List.length_append, List.length_map, List.enum_length]
    rfl
  · intro i r hr
    have hi : i < rows.length := by
      by_contra hlt
      push_neg at hlt
      rw [List.getElem?_eq_none hlt] at hr
      exact absurd hr (by simp)
    rw [List.getElem?_append_left (by rw [List.length_map, List.enum_length]; exact hi)]
    rw [List.getElem?_map, List.getElem?_enum, hr]
    cases ho : oracle i <;> simp [ho]
  · rw [List.getElem?_append_right (by rw [List.length_map, List.enum_length])]
    rw [List.length_map, List.enum_length, Nat.sub_self]
    rfl

/-- Witness for C9: on the concrete two-row manifest whose first download
404s, the first emitted signal is the failure message for case `A`. -/
theorem claim_C9_witness :
    (run c9_rows "/out" c9_oracle)[0]? =
      some (Event.progress 1 2 "Failed to download A: 404 Client Error") := by
  have h := (claim_C9 c9_rows "/out" c9_oracle).2.1 0 ⟨"https://h/ross/a.svs", "A"⟩ rfl
  exact h

/-- Claim C10: destination-path derivation splits the URL on only the first
occurrence of the literal marker `/ross/`; when the URL does not contain the
marker at all, the entire URL string is used as the sub-path joined under
the destination root (no error, no skipping); when it does, the path is the
root joined with everything after the first occurrence. -/
theorem claim_C10 (root url : String) (pre post : List Char) :
    ((∀ i, i < url.data.length → ¬ ross_marker.isPrefixOf (url.data.drop i) = true) →
      sub_path url = url ∧ file_path root url = path_join root url)
  ∧ ((url.data = pre ++ (ross_marker ++ post) ∧
      ∀ i, i < pre.length → ¬ ross_marker.isPrefixOf (url.data.drop i) = true) →
      sub_path url = ⟨post⟩ ∧ file_path root url = path_join root ⟨post⟩) := by
  constructor
  · intro h
    have hs : sub_path url = url := by
      unfold sub_path
      rw [afterFirst_eq_none ross_marker url.data h]
    exact ⟨hs, by unfold file_path; rw [hs]⟩
  · rintro ⟨hdec, h⟩
    have hs : sub_path url = ⟨post⟩ := by
      unfold sub_path
      rw [hdec, afterFirst_decomp ross_marker (by decide) pre post
        (fun i hi => by rw [← hdec]; exact h i hi)]
    exact ⟨hs, by unfold file_path; rw [hs]⟩

/-- Witness for C10: the spec's example URL maps under root `/out` to
`/out/sub/dir/file.svs`, and a marker-free URL is joined whole under the
root. -/
theorem claim_C10_witness :
    sub_path "https://host/ross/sub/dir/file.svs" = "sub/dir/file.svs"
  ∧ file_path "/out" "https://host/nomarker/f.svs" = "/out/https://host/nomarker/f.svs" := by
  constructor
  · exact ((claim_C10 "/out" "https://host/ross/sub/dir/file.svs"
      "https://host".data "sub/dir/file.svs".data).2 ⟨rfl, by decide⟩).1
  · exact ((claim_C10 "/out" "https://host/nomarker/f.svs" [] []).1 (by decide)).2
